import Mathlib

/-!
Verification development for the Polkadot staking-rewards analyzer
(`src/stores/validatorStore.ts` and its consumers).

The TypeScript store is shallowly embedded: JavaScript numbers are modelled
as rationals together with an explicit IEEE-754 binary64 rounding function
`fl` (round to nearest, ties to even) that is applied after every arithmetic
operation the source performs on `number` values; `bigint` values are
modelled as `ℤ` with truncating division (`Int.tdiv`), `Record<number, T>`
maps as association lists, and every remote query of the `typedApi`
collaborator as a field of an explicit environment `ChainEnv` whose answers
may be a value, absent, or a thrown error.
-/

namespace PolkadotStaking

/-! ## IEEE-754 binary64 model

JavaScript `number` arithmetic is double precision.  `fl q` rounds the exact
rational `q` to the nearest binary64 value (ties to even).  Overflow and
subnormals are not modelled: every quantity handled by the store is well
inside the normal range. -/

/-- Least `j` such that `b ≤ a * 2 ^ j` (searched with explicit fuel;
for `a ≥ 1` the search terminates well before the fuel runs out). -/
def leastPow2Go (b a : ℕ) : ℕ → ℕ → ℕ
  | j, 0 => j
  | j, fuel + 1 => if b ≤ a * 2 ^ j then j else leastPow2Go b a (j + 1) fuel

/-- `⌊log₂ n⌋` by structural recursion on explicit fuel (so that kernel
evaluation inside `decide` works; the recursion depth is `⌊log₂ n⌋`). -/
def natLog2Go : ℕ → ℕ → ℕ
  | 0, _ => 0
  | fuel + 1, n => if 2 ≤ n then natLog2Go fuel (n / 2) + 1 else 0

/-- `⌊log₂ n⌋` for `n ≥ 1`. -/
def natFloorLog2 (n : ℕ) : ℕ := natLog2Go n n

/-- `⌊log₂ q⌋` for a positive rational `q`. -/
def ratFloorLog2 (q : ℚ) : ℤ :=
  let a := q.num.toNat
  let b := q.den
  if b ≤ a then (natFloorLog2 (a / b) : ℤ)
  else -(leastPow2Go b a 0 (b + 1) : ℤ)

/-! The `Rat` field operations of this toolchain are `@[irreducible]` and
would block kernel evaluation inside `decide`; the model therefore computes
with the kernel-reducible exact equivalents `qAdd`/`qSub`/`qMul`/`qDiv`
built on `Rat.divInt`.  The lemmas `qAdd_eq_add` … below prove them equal
to the ordinary field operations. -/

/-- Exact rational addition via `Rat.divInt` (equals `a + b`). -/
def qAdd (a b : ℚ) : ℚ :=
  Rat.divInt (a.num * (b.den : ℤ) + b.num * (a.den : ℤ)) ((a.den : ℤ) * (b.den : ℤ))

/-- Exact rational subtraction via `Rat.divInt` (equals `a - b`). -/
def qSub (a b : ℚ) : ℚ :=
  Rat.divInt (a.num * (b.den : ℤ) - b.num * (a.den : ℤ)) ((a.den : ℤ) * (b.den : ℤ))

/-- Exact rational multiplication via `Rat.divInt` (equals `a * b`). -/
def qMul (a b : ℚ) : ℚ := Rat.divInt (a.num * b.num) ((a.den : ℤ) * (b.den : ℤ))

/-- Exact rational division via `Rat.divInt` (equals `a / b`; `0` when
`b = 0`, as for `Rat.div`). -/
def qDiv (a b : ℚ) : ℚ := Rat.divInt (a.num * (b.den : ℤ)) ((a.den : ℤ) * b.num)

/-- `q * 2 ^ e` for an integer exponent, exactly. -/
def qMulPow2 (q : ℚ) (e : ℤ) : ℚ :=
  if 0 ≤ e then qMul q (((2 ^ e.toNat : ℕ) : ℚ))
  else Rat.divInt q.num ((q.den : ℤ) * ((2 ^ (-e).toNat : ℕ) : ℤ))

/-- Round a rational to the nearest integer, ties to even. -/
def roundHalfToEven (x : ℚ) : ℤ :=
  let n := ⌊x⌋
  if qSub x (n : ℚ) < mkRat 1 2 then n
  else if mkRat 1 2 < qSub x (n : ℚ) then n + 1
  else if n % 2 = 0 then n else n + 1

/-- Round a positive rational to the nearest binary64 value: scale into
the 53-bit mantissa range `[2^52, 2^53)`, round, scale back. -/
def flPos (q : ℚ) : ℚ :=
  let e : ℤ := ratFloorLog2 q - 52
  qMulPow2 ((roundHalfToEven (qMulPow2 q (-e)) : ℤ) : ℚ) e

/-- Round any rational to the nearest binary64 value. -/
def fl (q : ℚ) : ℚ :=
  if q = 0 then 0 else if q < 0 then Rat.neg (flPos (Rat.neg q)) else flPos q

/-- JavaScript `a * b` on numbers. -/
def jsMul (a b : ℚ) : ℚ := fl (qMul a b)

/-- JavaScript `a / b` on numbers.  Every division performed by the store is
guarded by a nonzero divisor, so the `b = 0` case is arbitrary. -/
def jsDiv (a b : ℚ) : ℚ := if b = 0 then 0 else fl (qDiv a b)

/-- JavaScript `a + b` on numbers. -/
def jsAdd (a b : ℚ) : ℚ := fl (qAdd a b)

/-- `list.reduce((s, v) => s + v, 0)` on numbers. -/
def jsSum (l : List ℚ) : ℚ := l.foldl jsAdd 0

/-! ## Remote collaborator

`typedApi.query.*.getValue` calls are modelled by an environment of total
functions.  A call can succeed with a value, succeed with no data for the
key (`null`/`undefined` in the source), or throw. -/

/-- Outcome of one remote query: a value, absent data, or a thrown error. -/
inductive Fetch (α : Type) where
  | ok : Option α → Fetch α
  | err : Fetch α
deriving DecidableEq

/-- `Staking.ErasRewardPoints` result: individual `(address, points)` pairs
plus the era total. -/
structure EraPointsData where
  individual : List (String × ℕ)
  total : ℕ
deriving DecidableEq

/-- Validator preferences: fixed-point commission (denominator `10^9`) and
the blocked-nominations flag. -/
structure PrefsData where
  commission : ℤ
  blocked : Bool
deriving DecidableEq

/-- `Staking.ErasStakersOverview` result. -/
structure StakeData where
  total : ℤ
  own : ℤ
deriving DecidableEq

/-- The remote chain-state collaborator. -/
structure ChainEnv where
  activeEraQuery : Fetch ℕ
  erasValidatorReward : ℕ → Fetch ℤ
  erasRewardPoints : ℕ → Fetch EraPointsData
  sessionValidators : Fetch (List String)
  stakingValidators : String → Fetch PrefsData
  erasValidatorPrefs : ℕ → String → Fetch PrefsData
  erasStakersOverview : ℕ → String → Fetch StakeData

/-- A record of one remote query having been issued. -/
inductive RemoteCall where
  | activeEraCall
  | eraRewardCall (era : ℕ)
  | eraPointsCall (era : ℕ)
  | sessionValidatorsCall
  | validatorPrefsCall (address : String)
  | eraPrefsCall (era : ℕ) (address : String)
  | stakeOverviewCall (era : ℕ) (address : String)
deriving DecidableEq

/-! ## Data model (`validatorStore.ts:5-72`)

`Record<number, T>` era maps become association lists built exclusively by
`eraInsert`, so their keys stay distinct; `Object.keys(m).length` is then
`m.length` and `Object.values` enumerates keys in ascending numeric order
(JavaScript integer-key enumeration order), modelled by `eraValues`. -/

/-- `performance` block of a validator record. -/
structure Performance where
  currentEraPoints : ℕ
  previousErasPoints : List (ℕ × ℕ)
  averagePoints : ℚ
deriving DecidableEq

/-- `rewards` block of a validator record. -/
structure Rewards where
  currentEraReward : ℤ
  previousErasRewards : List (ℕ × ℤ)
  apyByEra : List (ℕ × ℚ)
  averageAPY : ℚ
  activeOnlyAverageAPY : ℚ
deriving DecidableEq

/-- The cached validator record (`interface Validator`). -/
structure Validator where
  address : String
  commission : ℚ
  blockedNominations : Bool
  totalStake : ℤ
  ownStake : ℤ
  lastEraAPY : ℚ
  performance : Performance
  rewards : Rewards
  historicalCommission : List (ℕ × ℚ)
  averageCommission : ℚ
deriving DecidableEq

/-- Element of `allValidators`. -/
structure SummaryEntry where
  address : String
  points : ℕ
deriving DecidableEq

/-- Element of `filteredValidators`; `lastEraAPY` is optional in the
source (`lastEraAPY?: number`). -/
structure FilteredEntry where
  address : String
  points : ℕ
  lastEraAPY : Option ℚ
deriving DecidableEq

/-- The Zustand store state (`interface ValidatorState`). -/
structure ValidatorState where
  currentPage : ℕ
  pageSize : ℕ
  totalValidators : ℕ
  allValidators : List SummaryEntry
  filteredValidators : List FilteredEntry
  displayedValidators : List Validator
  validatorCache : List (String × Validator)
  prefetchSize : ℕ
  activeEra : ℕ
  lastEra : ℕ
  currentEraReward : ℤ
  currentEraPoints : Option EraPointsData
  historicalEras : List ℕ
  historyLength : ℕ
  maxHistoryLength : ℕ
  selectedHistoricalValidator : Option String
  includeFullCommission : Bool
  includeBlockedNominations : Bool
  loading : Bool
  loadingPage : Bool
  loadingAPY : Bool
  loadingHistoricalData : Bool
  calculatingLastEraAPY : Bool
  lastEraAPYCalculated : Bool
  error : Option String
deriving DecidableEq

/-- The store's initial state (`validatorStore.ts:80-104`). -/
def initialState : ValidatorState where
  currentPage := 1
  pageSize := 10
  totalValidators := 0
  allValidators := []
  filteredValidators := []
  displayedValidators := []
  validatorCache := []
  prefetchSize := 100
  activeEra := 0
  lastEra := 0
  currentEraReward := 0
  currentEraPoints := none
  historicalEras := []
  historyLength := 20
  maxHistoryLength := 84
  selectedHistoricalValidator := none
  includeFullCommission := false
  includeBlockedNominations := false
  loading := false
  loadingPage := false
  loadingAPY := false
  loadingHistoricalData := false
  calculatingLastEraAPY := false
  lastEraAPYCalculated := false
  error := none

/-! ## Era-map and cache primitives -/

/-- Lookup in an era map (`m[era]`, `undefined` becomes `none`). -/
def eraLookup {α : Type} : List (ℕ × α) → ℕ → Option α
  | [], _ => none
  | (k, v) :: rest, key => if k = key then some v else eraLookup rest key

/-- Assignment `m[era] = v`: replace an existing key or append. -/
def eraInsert {α : Type} : List (ℕ × α) → ℕ → α → List (ℕ × α)
  | [], key, val => [(key, val)]
  | (k, v) :: rest, key, val =>
    if k = key then (k, val) :: rest else (k, v) :: eraInsert rest key val

/-- JavaScript enumeration order of integer-keyed objects: ascending key. -/
def eraEntriesAsc {α : Type} (m : List (ℕ × α)) : List (ℕ × α) :=
  List.insertionSort (fun x y => x.1 ≤ y.1) m

/-- `Object.values m` for an integer-keyed object. -/
def eraValues {α : Type} (m : List (ℕ × α)) : List α :=
  (eraEntriesAsc m).map Prod.snd

/-- `validatorCache[address]`. -/
def cacheLookup (cache : List (String × Validator)) (a : String) : Option Validator :=
  (cache.find? (fun e => e.1 == a)).map Prod.snd

/-- `set({validatorCache: {...cache, [address]: v}})`: replace or append. -/
def cacheInsert (cache : List (String × Validator)) (a : String) (v : Validator) :
    List (String × Validator) :=
  if (cache.find? (fun e => e.1 == a)).isSome then
    cache.map (fun e => if e.1 == a then (e.1, v) else e)
  else cache ++ [(a, v)]

/-- Worker for `chunkMap`, structurally recursive on fuel (one unit per
batch) so that kernel evaluation inside `decide` works. -/
def chunkMapGo {α β : Type} (b : ℕ) (f : α → β) : ℕ → List α → List β
  | _, [] => []
  | 0, l => l.map f
  | fuel + 1, l => (l.take b).map f ++ chunkMapGo b f fuel (l.drop b)

/-- The batch-processing loop shared by every fetch-heavy operation
(`for (let i = 0; i < items.length; i += batchSize) ... Promise.all`):
consecutive groups of at most `b` items, each item mapped independently. -/
def chunkMap {α β : Type} (b : ℕ) (f : α → β) (l : List α) : List β :=
  if b = 0 then l.map f else chunkMapGo b f l.length l

/-! ## APY computation core (`validatorStore.ts:493-508` and `1087-1096`)

The two duplicated copies of the formula in the source are line-for-line
identical; they are embedded once. -/

/-- `Number(commissionValue) / 1_000_000_000` (double division). -/
def commissionToNumber (commissionValue : ℤ) : ℚ :=
  jsDiv (fl (commissionValue : ℚ)) (1000000000 : ℚ)

/-- `BigInt(Math.floor(Number(eraReward) * pointsRatio))` where
`pointsRatio = validatorPoints / totalEraPoints` is a double division:
the validator's share of the era reward, computed in double precision
(`validatorStore.ts:500-501`, `1088-1089`). -/
def jsValidatorReward (eraReward : ℤ) (validatorPoints totalEraPoints : ℕ) : ℤ :=
  ⌊jsMul (fl (eraReward : ℚ)) (jsDiv (validatorPoints : ℚ) (totalEraPoints : ℚ))⌋

/-- `BigInt(Math.floor(commission * 1_000_000_000))`
(`validatorStore.ts:503`, `1091`). -/
def jsCommissionPart (commission : ℚ) : ℤ :=
  ⌊jsMul commission (1000000000 : ℚ)⌋

/-- `(validatorReward * nominatorRatio) / 1_000_000_000n` with
`nominatorRatio = 1_000_000_000n - commissionPart`; `BigInt` division
truncates toward zero (`validatorStore.ts:504-505`, `1092-1093`). -/
def jsNominatorReward (validatorReward commissionPart : ℤ) : ℤ :=
  Int.tdiv (validatorReward * (1000000000 - commissionPart)) 1000000000

/-- The APY formula body: reward share, commission removal, era return
rate, annualization by `365.25 * 100`. -/
def computeAPY (eraReward : ℤ) (validatorPoints totalEraPoints : ℕ)
    (commission : ℚ) (totalStake : ℤ) : ℚ :=
  let validatorReward := jsValidatorReward eraReward validatorPoints totalEraPoints
  let nominatorReward := jsNominatorReward validatorReward (jsCommissionPart commission)
  let eraReturnRate := jsDiv (fl (nominatorReward : ℚ)) (fl (totalStake : ℚ))
  jsMul (jsMul eraReturnRate (mkRat 1461 4)) 100

/-- The fixed-point current-era reward estimate
(`validatorStore.ts:782-790`, duplicated at `639-647`): `0n` unless the
stored era reward is nonzero (bigint truthiness), `points > 0` and the era
total is `> 0`; otherwise `(ratioFixed * reward) / 1_000_000n` with
`ratioFixed = BigInt(Math.floor(pointsRatio * 1_000_000))`. -/
def currentEraRewardCalc (storeReward : ℤ) (points : ℕ)
    (curPoints : Option EraPointsData) : ℤ :=
  match curPoints with
  | none => 0
  | some d =>
    if storeReward ≠ 0 ∧ 0 < points ∧ 0 < d.total then
      let ratioFixed : ℤ := ⌊jsMul (jsDiv (points : ℚ) (d.total : ℚ)) (1000000 : ℚ)⌋
      Int.tdiv (ratioFixed * storeReward) 1000000
    else 0

/-! ## Validator hydration (`fetchValidatorPage` / `prefetchValidators`)

Lines 764-858 and 621-701 of the source are the same fetch-and-build
sequence; it is embedded once as `fetchValidatorDetail`. -/

/-- The default record produced when a per-item fetch throws
(`validatorStore.ts:826-848`, duplicated at `674-700`): zero commission and
stake, but `lastEraAPY` carried over from the filtered entry
(`lastEraAPY: lastEraAPY || 0`). -/
def defaultValidator (address : String) (points : ℕ) (lastEraAPY : Option ℚ) : Validator where
  address := address
  commission := 0
  blockedNominations := false
  totalStake := 0
  ownStake := 0
  lastEraAPY := lastEraAPY.getD 0
  performance := { currentEraPoints := points, previousErasPoints := [], averagePoints := 0 }
  rewards := { currentEraReward := 0, previousErasRewards := [], apyByEra := [],
               averageAPY := 0, activeOnlyAverageAPY := 0 }
  historicalCommission := []
  averageCommission := 0

/-- Fetch-and-build a fresh validator record: preference query, stake
overview inside an inner try-catch that swallows errors, fixed-point
current-era reward.  Also returns the remote calls issued. -/
def fetchValidatorDetail (env : ChainEnv) (activeEra : ℕ) (storeReward : ℤ)
    (curPoints : Option EraPointsData) (address : String) (points : ℕ)
    (lastEraAPY : Option ℚ) : Validator × List RemoteCall :=
  match env.stakingValidators address with
  | Fetch.err =>
    (defaultValidator address points lastEraAPY, [RemoteCall.validatorPrefsCall address])
  | Fetch.ok prefs =>
    let commission := commissionToNumber ((prefs.map PrefsData.commission).getD 0)
    let blockedNominations := (prefs.map PrefsData.blocked).getD false
    let stakes : ℤ × ℤ :=
      match env.erasStakersOverview activeEra address with
      | Fetch.err => (0, 0)
      | Fetch.ok none => (0, 0)
      | Fetch.ok (some o) => if 0 < o.total then (o.total, o.own) else (0, 0)
    let validatorReward := currentEraRewardCalc storeReward points curPoints
    ({ address := address
       commission := commission
       blockedNominations := blockedNominations
       totalStake := stakes.1
       ownStake := stakes.2
       lastEraAPY := lastEraAPY.getD 0
       performance := { currentEraPoints := points, previousErasPoints := [], averagePoints := 0 }
       rewards := { currentEraReward := validatorReward, previousErasRewards := [], apyByEra := [],
                    averageAPY := 0, activeOnlyAverageAPY := 0 }
       historicalCommission := []
       averageCommission := commission },
     [RemoteCall.validatorPrefsCall address, RemoteCall.stakeOverviewCall activeEra address])

/-- Hydration of one page entry (`validatorStore.ts:741-859`): a cached
record is reused, refreshing its `lastEraAPY` from the filtered entry when
present and different; an uncached entry is fetched.  The `Bool` says
whether the record is written back to the cache. -/
def hydratePageEntry (env : ChainEnv) (activeEra : ℕ) (storeReward : ℤ)
    (curPoints : Option EraPointsData) (cache : List (String × Validator))
    (e : FilteredEntry) : Validator × Bool × List RemoteCall :=
  match cacheLookup cache e.address with
  | some cached =>
    match e.lastEraAPY with
    | some apy =>
      if cached.lastEraAPY ≠ apy then ({ cached with lastEraAPY := apy }, true, [])
      else (cached, false, [])
    | none => (cached, false, [])
  | none =>
    let r := fetchValidatorDetail env activeEra storeReward curPoints e.address e.points e.lastEraAPY
    (r.1, true, r.2)

/-- The slice `filteredValidators.slice(startIdx, startIdx + pageSize)`
with `startIdx = (page - 1) * pageSize`; callers always pass `page ≥ 1`. -/
def pageSlice (s : ValidatorState) (page : ℕ) : List FilteredEntry :=
  (s.filteredValidators.drop ((page - 1) * s.pageSize)).take s.pageSize

/-- `fetchValidatorPage` (`validatorStore.ts:725-869`): early-return when
the filtered projection is empty (before any state mutation), otherwise
set `currentPage := page`, hydrate the page slice in batches of 10 against
the cache snapshot taken at entry, and write new or refreshed records
back.  `loadingPage` is `true` during the run and `false` at the end. -/
def fetchValidatorPage (env : ChainEnv) (page : ℕ) (s : ValidatorState) :
    ValidatorState × List RemoteCall :=
  if s.filteredValidators.isEmpty then (s, [])
  else
    let slice := pageSlice s page
    let hyd := fun e =>
      hydratePageEntry env s.activeEra s.currentEraReward s.currentEraPoints s.validatorCache e
    let detailedValidators := chunkMap 10 (fun e => (hyd e).1) slice
    let cache' := slice.foldl (fun c e =>
      let r := hyd e
      if r.2.1 then cacheInsert c e.address r.1 else c) s.validatorCache
    let calls := (slice.map (fun e => (hyd e).2.2)).flatten
    ({ s with currentPage := page
              loadingPage := false
              displayedValidators := detailedValidators
              validatorCache := cache' }, calls)

/-! ## Filtering (`applyFilters`, `setFilterOptions`) -/

/-- Per-validator membership check of `applyFilters`
(`validatorStore.ts:256-293`).  `none` means filtered out.  Cached records
are judged on their cached `commission`/`blockedNominations`; uncached ones
on a fresh preference query; a thrown query degrades to an included entry
with `lastEraAPY: 0`. -/
def filterCheckEntry (env : ChainEnv) (incFull incBlocked : Bool)
    (cache : List (String × Validator)) (v : SummaryEntry) : Option FilteredEntry :=
  match cacheLookup cache v.address with
  | some cached =>
    if incFull = false ∧ 1 ≤ cached.commission then none
    else if incBlocked = false ∧ cached.blockedNominations then none
    else
      -- `lastEraAPY: cached.lastEraAPY || 0` is the identity on rationals
      some { address := v.address, points := v.points, lastEraAPY := some cached.lastEraAPY }
  | none =>
    match env.stakingValidators v.address with
    | Fetch.err => some { address := v.address, points := v.points, lastEraAPY := some 0 }
    | Fetch.ok prefs =>
      let commission := commissionToNumber ((prefs.map PrefsData.commission).getD 0)
      let blockedNominations := (prefs.map PrefsData.blocked).getD false
      if incFull = false ∧ 1 ≤ commission then none
      else if incBlocked = false ∧ blockedNominations then none
      else
        -- `validatorCache[address]?.lastEraAPY || 0`, still absent here
        some { address := v.address, points := v.points,
               lastEraAPY := some (((cacheLookup cache v.address).map Validator.lastEraAPY).getD 0) }

/-- `applyFilters` (`validatorStore.ts:233-337`): rebuild the filtered
projection (fast path when both filters admit everything, else batched
membership checks of size 50), sort by cached APY once
`lastEraAPYCalculated`, and report whether a bulk APY job was scheduled
(`setTimeout`, lines 326-328) - it is scheduled only when some filtered
address is missing from the cache and no bulk run is already in flight.
Per-item catches make the outer catch unreachable, so the error fallback
path (lines 329-336) does not occur in the model.  The membership
computation (fast path when both filters admit everything, else batched
checks of size 50 whose `null` results are dropped) is split off as
`applyFiltersResults`. -/
def applyFiltersResults (env : ChainEnv) (s : ValidatorState) : List FilteredEntry :=
  if s.includeFullCommission && s.includeBlockedNominations then
    s.allValidators.map (fun v => { address := v.address, points := v.points, lastEraAPY := none })
  else
    (chunkMap 50
      (filterCheckEntry env s.includeFullCommission s.includeBlockedNominations s.validatorCache)
      s.allValidators).filterMap id

/-- `applyFilters`, continued: sorting, state update and scheduling. -/
def applyFilters (env : ChainEnv) (s : ValidatorState) : ValidatorState × Bool :=
  let filteredResults : List FilteredEntry := applyFiltersResults env s
  let sortedResults :=
    if s.lastEraAPYCalculated then
      -- `sort((a, b) => bApy - aApy)` over APYs read from the cache snapshot
      List.insertionSort (fun a b =>
        ((cacheLookup s.validatorCache b.address).map Validator.lastEraAPY).getD 0 ≤
        ((cacheLookup s.validatorCache a.address).map Validator.lastEraAPY).getD 0) filteredResults
    else filteredResults
  let newValidatorsWithoutAPY :=
    filteredResults.any (fun v => (cacheLookup s.validatorCache v.address).isNone)
  ({ s with filteredValidators := sortedResults
            totalValidators := sortedResults.length
            loadingPage := false },
   newValidatorsWithoutAPY && !s.calculatingLastEraAPY)

/-- `setPageSize` (`validatorStore.ts:107-110`). -/
def setPageSize (env : ChainEnv) (size : ℕ) (s : ValidatorState) :
    ValidatorState × List RemoteCall :=
  fetchValidatorPage env 1 { s with pageSize := size }

/-- Argument of `setFilterOptions`. -/
structure FilterOptions where
  includeFullCommission : Option Bool
  includeBlockedNominations : Option Bool

/-- `setFilterOptions` (`validatorStore.ts:215-227`): merge the options
into the flags, re-apply filters, fetch page 1.  A bulk APY job scheduled
by `applyFilters` runs only after this chain (500 ms `setTimeout`). -/
def setFilterOptions (env : ChainEnv) (options : FilterOptions) (s : ValidatorState) :
    ValidatorState :=
  let s1 := { s with
    includeFullCommission := options.includeFullCommission.getD s.includeFullCommission
    includeBlockedNominations := options.includeBlockedNominations.getD s.includeBlockedNominations }
  (fetchValidatorPage env 1 (applyFilters env s1).1).1

/-! ## Bulk last-era APY (`calculateLastEraAPYForAllValidators`) -/

/-- The per-validator computation inside the bulk run, entered when there
is no cached record with a positive `lastEraAPY`
(`validatorStore.ts:469-538`): result APY, optional updated cache record,
and the remote calls issued.  A thrown fetch hits the per-item catch and
yields `(0, none)`. -/
def bulkEntryCompute (env : ChainEnv) (lastEra : ℕ) (indiv : List (String × ℕ))
    (totalEraPoints : ℕ) (eraReward : ℤ) (existing : Option Validator) (v : SummaryEntry) :
    ℚ × Option Validator × List RemoteCall :=
  let validatorPoints := ((indiv.find? (fun e => e.1 == v.address)).map Prod.snd).getD 0
  match env.erasValidatorPrefs lastEra v.address with
  | Fetch.err => (0, none, [RemoteCall.eraPrefsCall lastEra v.address])
  | Fetch.ok prefs =>
    let commission := commissionToNumber ((prefs.map PrefsData.commission).getD 0)
    let blockedNominations := (prefs.map PrefsData.blocked).getD false
    let calls := [RemoteCall.eraPrefsCall lastEra v.address,
                  RemoteCall.stakeOverviewCall lastEra v.address]
    match env.erasStakersOverview lastEra v.address with
    | Fetch.err => (0, none, calls)
    | Fetch.ok none => (0, existing.map (fun ex => { ex with lastEraAPY := 0 }), calls)
    | Fetch.ok (some o) =>
      if o.total = 0 then (0, existing.map (fun ex => { ex with lastEraAPY := 0 }), calls)
      else
        let apy := if 0 < validatorPoints
          then computeAPY eraReward validatorPoints totalEraPoints commission o.total
          else 0
        match existing with
        | some ex =>
          (apy, some { ex with lastEraAPY := apy, commission := commission,
                               blockedNominations := blockedNominations }, calls)
        | none => (apy, none, calls)

/-- One validator of the bulk run (`validatorStore.ts:456-539`): a cached
record with positive `lastEraAPY` short-circuits to its cached value. -/
def bulkEntryResult (env : ChainEnv) (lastEra : ℕ) (indiv : List (String × ℕ))
    (totalEraPoints : ℕ) (eraReward : ℤ) (cache : List (String × Validator))
    (v : SummaryEntry) : ℚ × Option Validator × List RemoteCall :=
  match cacheLookup cache v.address with
  | some ex =>
    if 0 < ex.lastEraAPY then (ex.lastEraAPY, some ex, [])
    else bulkEntryCompute env lastEra indiv totalEraPoints eraReward (some ex) v
  | none => bulkEntryCompute env lastEra indiv totalEraPoints eraReward none v

/-- `Map.set`-then-`get` semantics of `apyMap`: last write for an address
wins (`validatorStore.ts:562-563`). -/
def apyMapLookup (results : List (String × ℚ × Option Validator × List RemoteCall))
    (a : String) : Option ℚ :=
  ((results.filter (fun r => r.1 == a)).getLast?).map (fun r => r.2.1)

/-- `calculateLastEraAPYForAllValidators` (`validatorStore.ts:416-595`).
There is no entry guard: the function unconditionally sets
`calculatingLastEraAPY := true` and `lastEraAPYCalculated := false` and
issues the last-era reward fetch.  On missing reward or points data (or a
zero era total) it stops with `calculatingLastEraAPY := false`; otherwise
it computes every validator's APY in batches of 25 against the cache
snapshot, merges updated records, rewrites and re-sorts the filtered
projection, sets the completion flags, and reloads page 1.  Error-message
text is abstracted to a constant. -/
def calculateLastEraAPYForAllValidators (env : ChainEnv) (s : ValidatorState) :
    ValidatorState × List RemoteCall :=
  let s1 := { s with calculatingLastEraAPY := true, lastEraAPYCalculated := false }
  match env.erasValidatorReward s.lastEra with
  | Fetch.err =>
    ({ s1 with calculatingLastEraAPY := false,
               error := some "calculation error for apy calcs" },
     [RemoteCall.eraRewardCall s.lastEra])
  | Fetch.ok none =>
    ({ s1 with calculatingLastEraAPY := false }, [RemoteCall.eraRewardCall s.lastEra])
  | Fetch.ok (some eraReward) =>
    let calls0 := [RemoteCall.eraRewardCall s.lastEra, RemoteCall.eraPointsCall s.lastEra]
    match env.erasRewardPoints s.lastEra with
    | Fetch.err =>
      ({ s1 with calculatingLastEraAPY := false,
                 error := some "calculation error for apy calcs" }, calls0)
    | Fetch.ok none => ({ s1 with calculatingLastEraAPY := false }, calls0)
    | Fetch.ok (some pts) =>
      if pts.total = 0 then ({ s1 with calculatingLastEraAPY := false }, calls0)
      else
        let results := chunkMap 25 (fun v =>
          (v.address, bulkEntryResult env s.lastEra pts.individual pts.total eraReward
            s.validatorCache v)) s.allValidators
        let cache' := results.foldl (fun c r =>
          match r.2.2.1 with
          | some inst => cacheInsert c r.1 inst
          | none => c) s.validatorCache
        let callsItems := (results.map (fun r => r.2.2.2)).flatten
        let updatedFiltered := s.filteredValidators.map (fun v =>
          { v with lastEraAPY := some ((apyMapLookup results v.address).getD 0) })
        let sortedFiltered := List.insertionSort
          (fun a b => (b.lastEraAPY.getD 0) ≤ (a.lastEraAPY.getD 0)) updatedFiltered
        let updatedDisplayed := s.displayedValidators.map (fun v =>
          { v with lastEraAPY := (apyMapLookup results v.address).getD 0 })
        let s2 := { s1 with validatorCache := cache'
                            filteredValidators := sortedFiltered
                            displayedValidators := updatedDisplayed
                            lastEraAPYCalculated := true
                            calculatingLastEraAPY := false }
        let r := fetchValidatorPage env 1 s2
        (r.1, calls0 ++ callsItems ++ r.2)

/-! ## Bootstrap and prefetch -/

/-- `prefetchValidators` (`validatorStore.ts:601-719`): build records for
the first `prefetchSize` uncached filtered validators (batches of 10) and
merge them into the cache; `displayedValidators` is untouched. -/
def prefetchValidators (env : ChainEnv) (s : ValidatorState) : ValidatorState :=
  if s.filteredValidators.isEmpty then s
  else
    let toPrefetch := (s.filteredValidators.filter
      (fun v => (cacheLookup s.validatorCache v.address).isNone)).take s.prefetchSize
    if toPrefetch.isEmpty then s
    else
      let cache' := toPrefetch.foldl (fun c v =>
        cacheInsert c v.address
          (fetchValidatorDetail env s.activeEra s.currentEraReward s.currentEraPoints
            v.address v.points v.lastEraAPY).1) s.validatorCache
      { s with validatorCache := cache' }

/-- `fetchAllValidators` (`validatorStore.ts:343-410`): bootstrap.  Fetch
the active era (fatal if absent), the active era's reward and points and
the session validator set, rank by points descending (stable), then apply
filters and fetch page 1.  The two `setTimeout` background jobs (bulk APY
after 1 s, prefetch after 2 s) are *not* executed here; an execution trace
runs them as separate later steps.  Error-message text is abstracted. -/
def fetchAllValidators (env : ChainEnv) (s : ValidatorState) : ValidatorState :=
  let s0 := { s with loading := true, error := none }
  match env.activeEraQuery with
  | Fetch.err => { s0 with error := some "failed gettin the active era...", loading := false }
  | Fetch.ok none => { s0 with error := some "failed gettin the active era...", loading := false }
  | Fetch.ok (some activeEra) =>
    match env.erasValidatorReward activeEra, env.sessionValidators,
          env.erasRewardPoints activeEra with
    | Fetch.err, _, _ => { s0 with error := some "bootstrap fetch failed", loading := false }
    | _, Fetch.err, _ => { s0 with error := some "bootstrap fetch failed", loading := false }
    | _, _, Fetch.err => { s0 with error := some "bootstrap fetch failed", loading := false }
    | _, Fetch.ok none, _ => { s0 with error := some "bootstrap fetch failed", loading := false }
    | Fetch.ok rw, Fetch.ok (some validatorAddresses), Fetch.ok pts =>
      let pointsMap : List (String × ℕ) :=
        match pts with
        | none => []
        | some d => d.individual
      let allValidators : List SummaryEntry := validatorAddresses.map (fun a =>
        { address := a, points := ((pointsMap.find? (fun e => e.1 == a)).map Prod.snd).getD 0 })
      let sorted := List.insertionSort (fun a b => b.points ≤ a.points) allValidators
      let s2 := { s0 with allValidators := sorted
                          activeEra := activeEra
                          lastEra := activeEra - 1
                          maxHistoryLength := min 84 activeEra
                          currentEraReward := rw.getD 0
                          currentEraPoints := pts
                          loading := false }
      (fetchValidatorPage env 1 (applyFilters env s2).1).1

/-! ## Historical performance (`fetchHistoricalPerformance`) -/

/-- The era window `[activeEra - 1, activeEra - 2, …]` of length
`historyLength`, negative eras dropped (`validatorStore.ts:883-886`). -/
def requestedEras (activeEra historyLength : ℕ) : List ℕ :=
  (List.range historyLength).filterMap (fun i =>
    if i + 1 ≤ activeEra then some (activeEra - i - 1) else none)

/-- The three per-era maps accumulated by the historical fetch loop. -/
structure HistoricalMaps where
  validatorPerformance : List (ℕ × ℕ)
  validatorRewards : List (ℕ × ℤ)
  validatorCommissions : List (ℕ × ℚ)
deriving DecidableEq

/-- One era of the historical fetch loop (`validatorStore.ts:916-960`):
`(errored, points?, reward?, commission?)`.  A throw of the points or
reward query hits the per-era catch (which sets the error message) and
records nothing for the era; the commission query has its own silent
catch.  Points are recorded for the first matching individual entry;
the reward additionally needs a truthy (nonzero) era reward and positive
total; the commission needs a truthy (nonzero) raw commission. -/
def historicalEraFetch (env : ChainEnv) (addr : String) (era : ℕ) :
    Bool × Option ℕ × Option ℤ × Option ℚ :=
  match env.erasRewardPoints era with
  | Fetch.err => (true, none, none, none)
  | Fetch.ok pts =>
    match env.erasValidatorReward era with
    | Fetch.err => (true, none, none, none)
    | Fetch.ok eraReward =>
      let found : Option ℕ := pts.bind (fun d =>
        (d.individual.find? (fun e => e.1 == addr)).map Prod.snd)
      let rewardRec : Option ℤ :=
        match pts, found, eraReward with
        | some d, some p, some r =>
          if r ≠ 0 ∧ 0 < d.total then
            some (Int.tdiv (⌊jsMul (jsDiv (p : ℚ) (d.total : ℚ)) (1000000 : ℚ)⌋ * r) 1000000)
          else none
        | _, _, _ => none
      let commRec : Option ℚ :=
        match env.erasValidatorPrefs era addr with
        | Fetch.err => none
        | Fetch.ok none => none
        | Fetch.ok (some p) =>
          if p.commission ≠ 0 then some (commissionToNumber p.commission) else none
      (false, found, rewardRec, commRec)

/-- The whole fetch loop over the requested eras (batches of 5; the final
map contents are order-independent because each era owns its key). -/
def historicalFetch (env : ChainEnv) (addr : String) (eras : List ℕ) :
    HistoricalMaps × Bool :=
  eras.foldl (fun acc era =>
    let r := historicalEraFetch env addr era
    if r.1 then (acc.1, true)
    else
      ({ validatorPerformance :=
           match r.2.1 with
           | some p => eraInsert acc.1.validatorPerformance era p
           | none => acc.1.validatorPerformance
         validatorRewards :=
           match r.2.2.1 with
           | some w => eraInsert acc.1.validatorRewards era w
           | none => acc.1.validatorRewards
         validatorCommissions :=
           match r.2.2.2 with
           | some c => eraInsert acc.1.validatorCommissions era c
           | none => acc.1.validatorCommissions }, acc.2))
    ({ validatorPerformance := [], validatorRewards := [], validatorCommissions := [] }, false)

/-- `fetchHistoricalPerformance` (`validatorStore.ts:875-1023`).  The
updated record *replaces* `previousErasPoints`, `previousErasRewards` and
`historicalCommission` with the freshly fetched maps (lines 985-1001);
`apyByEra` and the APY averages are re-assigned to themselves.  When not
forced and the cached points map already covers at least the requested
number of eras, the fetch is skipped entirely. -/
def fetchHistoricalPerformance (env : ChainEnv) (validatorAddress : String)
    (forceRefresh : Bool) (s : ValidatorState) : ValidatorState :=
  if validatorAddress = "" then s
  else
    let historicalEras := requestedEras s.activeEra s.historyLength
    let s1 := { s with loadingHistoricalData := true, historicalEras := historicalEras }
    match (cacheLookup s.validatorCache validatorAddress).orElse
          (fun _ => s.displayedValidators.find? (fun v => v.address == validatorAddress)) with
    | none => { s1 with loadingHistoricalData := false }
    | some validator =>
      if forceRefresh = false ∧
         historicalEras.length ≤ validator.performance.previousErasPoints.length then
        { s1 with loadingHistoricalData := false }
      else
        let fetched := historicalFetch env validatorAddress historicalEras
        let maps := fetched.1
        let historicalPointsArray := historicalEras.filterMap (fun era =>
          eraLookup maps.validatorPerformance era)
        let commissionValues := historicalEras.filterMap (fun era =>
          eraLookup maps.validatorCommissions era)
        let averagePoints := if 0 < historicalPointsArray.length
          then jsDiv (jsSum (historicalPointsArray.map (fun p => (p : ℚ))))
                     (historicalPointsArray.length : ℚ)
          else 0
        let averageCommission := if 0 < commissionValues.length
          then jsDiv (jsSum commissionValues) (commissionValues.length : ℚ)
          else validator.commission
        let updatedValidator :=
          { validator with
            performance := { validator.performance with
              previousErasPoints := maps.validatorPerformance
              averagePoints := averagePoints }
            -- `apyByEra`, `averageAPY`, `activeOnlyAverageAPY` are
            -- re-assigned to their own values (`x || \x7b\x7d` / `x || 0`)
            rewards := { validator.rewards with
              previousErasRewards := maps.validatorRewards }
            historicalCommission := maps.validatorCommissions
            averageCommission := averageCommission }
        { s1 with
          validatorCache := cacheInsert s1.validatorCache validatorAddress updatedValidator
          displayedValidators := s.displayedValidators.map (fun v =>
            if v.address == validatorAddress then updatedValidator else v)
          loadingHistoricalData := false
          error := if fetched.2 then some "something went wrong fetching the era data" else s.error }

/-! ## Historical APY (`calculateValidatorAPY`, `calculateAverages`) -/

/-- APY of one historical era (`validatorStore.ts:1045-1101`): `none` when
the era is skipped (absent or zero era reward, absent points data, zero
validator points, zero era total, absent or zero stake, or a thrown
fetch); the `Bool` reports a thrown fetch (which sets the error message).
The commission is the era's historical one if truthy, else the record's
current commission. -/
def historicalEraAPY (env : ChainEnv) (validator : Validator) (addr : String) (era : ℕ) :
    Option ℚ × Bool :=
  match env.erasValidatorReward era with
  | Fetch.err => (none, true)
  | Fetch.ok none => (none, false)
  | Fetch.ok (some eraReward) =>
    if eraReward = 0 then (none, false)
    else
      match env.erasRewardPoints era with
      | Fetch.err => (none, true)
      | Fetch.ok none => (none, false)
      | Fetch.ok (some pts) =>
        let validatorPoints := ((pts.individual.find? (fun e => e.1 == addr)).map Prod.snd).getD 0
        if validatorPoints = 0 ∨ pts.total = 0 then (none, false)
        else
          let commission :=
            match eraLookup validator.historicalCommission era with
            | some c => if c = 0 then validator.commission else c
            | none => validator.commission
          match env.erasStakersOverview era addr with
          | Fetch.err => (none, true)
          | Fetch.ok none => (none, false)
          | Fetch.ok (some o) =>
            if o.total = 0 then (none, false)
            else (some (computeAPY eraReward validatorPoints pts.total commission o.total), false)

/-- One step of the `apyByEra` accumulation: record computed eras, skip
the rest (tracking whether a fetch threw). -/
def buildApyStep (env : ChainEnv) (validator : Validator) (addr : String)
    (acc : List (ℕ × ℚ) × Bool) (era : ℕ) : List (ℕ × ℚ) × Bool :=
  match historicalEraAPY env validator addr era with
  | (some apy, _) => (eraInsert acc.1 era apy, acc.2)
  | (none, e) => (acc.1, acc.2 || e)

/-- The `apyByEra` map built over the requested eras (batches of 3; each
era owns its key).  Skipped eras get no entry. -/
def buildApyMap (env : ChainEnv) (validator : Validator) (addr : String) (eras : List ℕ) :
    List (ℕ × ℚ) × Bool :=
  eras.foldl (buildApyStep env validator addr) ([], false)

/-- The two aggregates computed from `apyByEra`
(`validatorStore.ts:1105-1115`): mean of all present entries and mean of
the positive entries (`Object.values` enumerates keys ascending). -/
def apyAggregates (apyByEra : List (ℕ × ℚ)) : ℚ × ℚ :=
  let apyValues := eraValues apyByEra
  let averageAPY := if 0 < apyValues.length
    then jsDiv (jsSum apyValues) (apyValues.length : ℚ) else 0
  let activeApyValues := apyValues.filter (fun apy => 0 < apy)
  let activeOnlyAverageAPY := if 0 < activeApyValues.length
    then jsDiv (jsSum activeApyValues) (activeApyValues.length : ℚ) else 0
  (averageAPY, activeOnlyAverageAPY)

/-- `calculateAverages` (`validatorStore.ts:116-183`): recompute
`averagePoints`, `averageCommission` (eras with positive points only) and
`averageAPY` (eras of `historicalEras` with a *truthy* `apyByEra` entry
only) for a validator found in `displayedValidators`; a validator that is
only cached is left untouched. -/
def calculateAverages (validatorAddress : String) (s : ValidatorState) : ValidatorState :=
  match s.displayedValidators.find? (fun v => v.address == validatorAddress) with
  | none => s
  | some validator =>
    let activeEras := s.historicalEras.filter (fun era =>
      match eraLookup validator.performance.previousErasPoints era with
      | some p => 0 < p
      | none => false)
    let pointsVals := activeEras.filterMap (fun era =>
      (eraLookup validator.performance.previousErasPoints era).map (fun p => (p : ℚ)))
    let commissionVals := activeEras.filterMap (fun era =>
      eraLookup validator.historicalCommission era)
    let apyVals := s.historicalEras.filterMap (fun era =>
      match eraLookup validator.rewards.apyByEra era with
      | some a => if a ≠ 0 then some a else none
      | none => none)
    let averagePoints := if 0 < pointsVals.length
      then jsDiv (jsSum pointsVals) (pointsVals.length : ℚ) else 0
    let averageCommission := if 0 < commissionVals.length
      then jsDiv (jsSum commissionVals) (commissionVals.length : ℚ) else validator.commission
    let averageAPY := if 0 < apyVals.length
      then jsDiv (jsSum apyVals) (apyVals.length : ℚ) else 0
    let updated := { validator with
      performance := { validator.performance with averagePoints := averagePoints }
      rewards := { validator.rewards with averageAPY := averageAPY }
      averageCommission := averageCommission }
    { s with
      displayedValidators := s.displayedValidators.map (fun v =>
        if v.address == validatorAddress then updated else v)
      validatorCache := cacheInsert s.validatorCache validatorAddress updated }

/-- `calculateValidatorAPY` (`validatorStore.ts:1029-1158`): build the
per-era APY series for the selected validator (taken from
`displayedValidators` first, else the cache), compute the two aggregates,
write them into the displayed list and the cache, then run
`calculateAverages` (which, for a *displayed* validator, overwrites
`averageAPY` with the mean over nonzero entries). -/
def calculateValidatorAPY (env : ChainEnv) (validatorAddress : String) (s : ValidatorState) :
    ValidatorState :=
  match (s.displayedValidators.find? (fun v => v.address == validatorAddress)).orElse
        (fun _ => cacheLookup s.validatorCache validatorAddress) with
  | none => s
  | some validator =>
    let built := buildApyMap env validator validatorAddress s.historicalEras
    let apyByEra := built.1
    let aggregates := apyAggregates apyByEra
    let withApy := fun (v : Validator) =>
      { v with rewards := { v.rewards with
          apyByEra := apyByEra
          averageAPY := aggregates.1
          activeOnlyAverageAPY := aggregates.2 } }
    let s1 := { s with
      displayedValidators := s.displayedValidators.map (fun v =>
        if v.address == validatorAddress then withApy v else v)
      validatorCache := cacheInsert s.validatorCache validatorAddress (withApy validator)
      loadingAPY := false
      error := if built.2 then some "APY calc error" else s.error }
    calculateAverages validatorAddress s1

/-- `totalPages` as derived by the `useValidatorData` hook
(`useValidatorData.ts:49`): `Math.ceil(totalValidators / pageSize)`. -/
def totalPages (totalValidators pageSize : ℕ) : ℤ :=
  ⌈jsDiv (fl (totalValidators : ℚ)) (fl (pageSize : ℚ))⌉

/-! ## Concrete scenarios referenced by the theorems -/

/-- An environment whose every query answers "no data". -/
def emptyEnv : ChainEnv where
  activeEraQuery := Fetch.ok none
  erasValidatorReward := fun _ => Fetch.ok none
  erasRewardPoints := fun _ => Fetch.ok none
  sessionValidators := Fetch.ok none
  stakingValidators := fun _ => Fetch.ok none
  erasValidatorPrefs := fun _ _ => Fetch.ok none
  erasStakersOverview := fun _ _ => Fetch.ok none

/-- A minimal cached validator record. -/
def mkValidator (a : String) (commission : ℚ) (blocked : Bool) (apy : ℚ) : Validator where
  address := a
  commission := commission
  blockedNominations := blocked
  totalStake := 0
  ownStake := 0
  lastEraAPY := apy
  performance := { currentEraPoints := 0, previousErasPoints := [], averagePoints := 0 }
  rewards := { currentEraReward := 0, previousErasRewards := [], apyByEra := [],
               averageAPY := 0, activeOnlyAverageAPY := 0 }
  historicalCommission := []
  averageCommission := commission

/-- C1 scenario: the chain serves historical data for era 7 only. -/
def histEnv : ChainEnv :=
  { emptyEnv with
    erasRewardPoints := fun era =>
      if era = 7 then Fetch.ok (some { individual := [("A", 20)], total := 2 })
      else Fetch.ok none
    erasValidatorReward := fun era =>
      if era = 7 then Fetch.ok (some 100) else Fetch.ok none }

/-- C1 scenario: validator `A` cached with one known era, `5 ↦ 10` points. -/
def histValidatorA : Validator :=
  { mkValidator "A" 0 false 0 with
    performance := { currentEraPoints := 0, previousErasPoints := [(5, 10)], averagePoints := 0 } }

/-- C1 scenario: active era 8, one requested era. -/
def histState : ValidatorState :=
  { initialState with
    activeEra := 8
    historyLength := 1
    validatorCache := [("A", histValidatorA)] }

/-- C1 scenario: the state after a forced historical refresh of `A`. -/
def histResult : ValidatorState := fetchHistoricalPerformance histEnv "A" true histState

/-- C3 scenario: last era 9 has a reward but a zero points total. -/
def zeroTotalEnv : ChainEnv :=
  { emptyEnv with
    erasValidatorReward := fun era => if era = 9 then Fetch.ok (some 1000) else Fetch.ok none
    erasRewardPoints := fun era =>
      if era = 9 then Fetch.ok (some { individual := [("A", 0)], total := 0 })
      else Fetch.ok none }

/-- C3 scenario: `A` cached with `lastEraAPY = 7` before the bulk run. -/
def zeroTotalState : ValidatorState :=
  { initialState with
    lastEra := 9
    allValidators := [{ address := "A", points := 0 }]
    validatorCache := [("A", mkValidator "A" 0 false 7)] }

/-- C3 scenario: the state after the bulk last-era APY run. -/
def zeroTotalResult : ValidatorState :=
  (calculateLastEraAPYForAllValidators zeroTotalEnv zeroTotalState).1

/-- C4 scenario: eras 1 and 3 are active for `A` (points 1 of 2, stake 2,
rewards 4 and 8), era 2 is inactive (zero points). -/
def apyEnv : ChainEnv :=
  { emptyEnv with
    erasValidatorReward := fun era =>
      if era = 1 then Fetch.ok (some 4)
      else if era = 2 then Fetch.ok (some 4)
      else if era = 3 then Fetch.ok (some 8)
      else Fetch.ok none
    erasRewardPoints := fun era =>
      if era = 1 then Fetch.ok (some { individual := [("A", 1)], total := 2 })
      else if era = 2 then Fetch.ok (some { individual := [("A", 0)], total := 2 })
      else if era = 3 then Fetch.ok (some { individual := [("A", 1)], total := 2 })
      else Fetch.ok none
    erasStakersOverview := fun _ a =>
      if a = "A" then Fetch.ok (some { total := 2, own := 1 }) else Fetch.ok none }

/-- C4 scenario: `A` is only cached (not displayed), three requested eras. -/
def apyState : ValidatorState :=
  { initialState with
    historicalEras := [3, 2, 1]
    validatorCache := [("A", mkValidator "A" 0 false 0)] }

/-- C4 scenario: the state after the historical APY computation for `A`. -/
def apyResult : ValidatorState := calculateValidatorAPY apyEnv "A" apyState

/-- C4 displayed scenario: `A` has a recorded 100 % commission for era 1,
so era 1 contributes an explicit zero APY entry. -/
def apyDispValidator : Validator :=
  { mkValidator "A" 0 false 0 with historicalCommission := [(1, 1)] }

/-- C4 displayed scenario: `A` is in `displayedValidators`, so
`calculateAverages` runs on it after the APY computation. -/
def apyDispState : ValidatorState :=
  { initialState with
    historicalEras := [3, 2, 1]
    displayedValidators := [apyDispValidator] }

/-- C4 displayed scenario: the resulting state. -/
def apyDispResult : ValidatorState := calculateValidatorAPY apyEnv "A" apyDispState

/-- C5 scenario: a bulk APY run is flagged as in flight and had completed
once before. -/
def inflightState : ValidatorState :=
  { initialState with
    calculatingLastEraAPY := true
    lastEraAPYCalculated := true }

/-- C5 scenario: a second direct invocation against that state. -/
def inflightRun : ValidatorState × List RemoteCall :=
  calculateLastEraAPYForAllValidators emptyEnv inflightState

/-- C6/C7/C8 witness scenario: one ranked validator, cached with
commission 1/2 and open nominations. -/
def filterState : ValidatorState :=
  { initialState with
    allValidators := [{ address := "A", points := 5 }]
    validatorCache := [("A", mkValidator "A" (mkRat 1 2) false 3)] }

/-- C7 scenario: an empty filtered projection while the UI sits on page 3. -/
def pageThreeState : ValidatorState := { initialState with currentPage := 3 }

/-- C8 scenario: both session validators block nominations. -/
def staleEnv : ChainEnv :=
  { emptyEnv with
    activeEraQuery := Fetch.ok (some 5)
    sessionValidators := Fetch.ok (some ["A", "B"])
    stakingValidators := fun _ => Fetch.ok (some { commission := 0, blocked := true }) }

/-- C8 scenario, step 1: bootstrap (filters exclude both validators). -/
def staleStep1 : ValidatorState := fetchAllValidators staleEnv initialState

/-- C8 scenario, step 2: the delayed bulk APY job (no last-era reward data,
so it stops early). -/
def staleStep2 : ValidatorState := (calculateLastEraAPYForAllValidators staleEnv staleStep1).1

/-- C8 scenario, step 3: the delayed prefetch job (empty projection). -/
def staleStep3 : ValidatorState := prefetchValidators staleEnv staleStep2

/-- C8 scenario, step 4: admit blocked validators; two rows get displayed. -/
def staleStep4 : ValidatorState :=
  setFilterOptions staleEnv
    { includeFullCommission := none, includeBlockedNominations := some true } staleStep3

/-- C8 scenario, step 5: the bulk APY job scheduled by step 4 (stops early
again). -/
def staleStep5 : ValidatorState := (calculateLastEraAPYForAllValidators staleEnv staleStep4).1

/-- C8 scenario, step 6: exclude blocked validators again; the filtered
projection empties but the displayed page keeps its two rows. -/
def staleStep6 : ValidatorState :=
  setFilterOptions staleEnv
    { includeFullCommission := none, includeBlockedNominations := some false } staleStep5

/-- C8 pagination instance: 25 filtered entries at page size 10. -/
def twentyFiveState : ValidatorState :=
  { initialState with
    filteredValidators := (List.range 25).map (fun i =>
      { address := toString i, points := i, lastEraAPY := none })
    pageSize := 10 }

/-- C9 scenario: the preference query always throws. -/
def failEnv : ChainEnv := { emptyEnv with stakingValidators := fun _ => Fetch.err }

/-- C9 scenario: one filtered entry carrying a known `lastEraAPY` of 5. -/
def failState : ValidatorState :=
  { initialState with
    filteredValidators := [{ address := "A", points := 3, lastEraAPY := some 5 }] }

/-- C9 scenario: the hydrated page under the failing environment. -/
def failResult : ValidatorState × List RemoteCall := fetchValidatorPage failEnv 1 failState

/-! # Theorems

Auxiliary lemmas about the primitives first, then one theorem (with
witness or counterexample) per specification claim. -/

theorem qAdd_eq_add (a b : ℚ) : qAdd a b = a + b := by
  have ha : ((a.den : ℚ)) ≠ 0 := Nat.cast_ne_zero.mpr a.den_nz
  have hb : ((b.den : ℚ)) ≠ 0 := Nat.cast_ne_zero.mpr b.den_nz
  rw [qAdd, Rat.divInt_eq_div]
  push_cast
  conv_rhs => rw [← Rat.num_div_den a, ← Rat.num_div_den b]
  field_simp
  try ring

theorem qSub_eq_sub (a b : ℚ) : qSub a b = a - b := by
  have ha : ((a.den : ℚ)) ≠ 0 := Nat.cast_ne_zero.mpr a.den_nz
  have hb : ((b.den : ℚ)) ≠ 0 := Nat.cast_ne_zero.mpr b.den_nz
  rw [qSub, Rat.divInt_eq_div]
  push_cast
  conv_rhs => rw [← Rat.num_div_den a, ← Rat.num_div_den b]
  field_simp
  try ring

theorem qMul_eq_mul (a b : ℚ) : qMul a b = a * b := by
  have ha : ((a.den : ℚ)) ≠ 0 := Nat.cast_ne_zero.mpr a.den_nz
  have hb : ((b.den : ℚ)) ≠ 0 := Nat.cast_ne_zero.mpr b.den_nz
  rw [qMul, Rat.divInt_eq_div]
  push_cast
  conv_rhs => rw [← Rat.num_div_den a, ← Rat.num_div_den b]
  field_simp
  try ring

theorem qDiv_eq_div (a b : ℚ) : qDiv a b = a / b := by
  by_cases hb0 : b = 0
  · subst hb0
    simp [qDiv]
  · have ha : ((a.den : ℚ)) ≠ 0 := Nat.cast_ne_zero.mpr a.den_nz
    have hbn : (b.num : ℚ) ≠ 0 := by
      exact_mod_cast Rat.num_ne_zero.mpr hb0
    have hbd : ((b.den : ℚ)) ≠ 0 := Nat.cast_ne_zero.mpr b.den_nz
    rw [qDiv, Rat.divInt_eq_div]
    push_cast
    conv_rhs => rw [← Rat.num_div_den a, ← Rat.num_div_den b]
    field_simp
    try ring

theorem chunkMapGo_eq_map {α β : Type} (b : ℕ) (f : α → β) :
    ∀ (fuel : ℕ) (l : List α), chunkMapGo b f fuel l = l.map f := by
  intro fuel
  induction fuel with
  | zero => intro l; cases l <;> rfl
  | succ fuel ih =>
    intro l
    cases l with
    | nil => rfl
    | cons x xs =>
      show (((x :: xs).take b).map f ++ chunkMapGo b f fuel ((x :: xs).drop b)) = _
      rw [ih, ← List.map_append, List.take_append_drop]

theorem chunkMap_eq_map {α β : Type} (b : ℕ) (f : α → β) (l : List α) :
    chunkMap b f l = l.map f := by
  rw [chunkMap]
  split
  · rfl
  · exact chunkMapGo_eq_map b f l.length l

theorem find?_map_replace (c : List (String × Validator)) (a : String) (v : Validator) :
    (c.map (fun e => if e.1 == a then (e.1, v) else e)).find? (fun e => e.1 == a) =
      (c.find? (fun e => e.1 == a)).map (fun e => (e.1, v)) := by
  induction c with
  | nil => rfl
  | cons e rest ih =>
    rw [List.map_cons]
    by_cases he : (e.1 == a) = true
    · rw [if_pos he,
        @List.find?_cons_of_pos _ (fun x => x.1 == a) (e.1, v) _ he,
        @List.find?_cons_of_pos _ (fun x => x.1 == a) e _ he]
      rfl
    · rw [if_neg he,
        @List.find?_cons_of_neg _ (fun x => x.1 == a) e _ he,
        @List.find?_cons_of_neg _ (fun x => x.1 == a) e _ he]
      exact ih

theorem find?_append_of_none {p : String × Validator → Bool}
    {c : List (String × Validator)} (h : c.find? p = none) (l : List (String × Validator)) :
    (c ++ l).find? p = l.find? p := by
  induction c with
  | nil => rfl
  | cons e rest ih =>
    by_cases he : p e = true
    · rw [List.find?_cons_of_pos _ he] at h; cases h
    · rw [List.find?_cons_of_neg _ he] at h
      rw [List.cons_append, List.find?_cons_of_neg _ he]
      exact ih h

theorem cacheLookup_cacheInsert_self (c : List (String × Validator)) (a : String)
    (v : Validator) : cacheLookup (cacheInsert c a v) a = some v := by
  unfold cacheInsert
  split
  next h =>
    unfold cacheLookup
    rw [find?_map_replace]
    obtain ⟨e, he⟩ := Option.isSome_iff_exists.mp h
    rw [he]
    rfl
  next h =>
    unfold cacheLookup
    rw [find?_append_of_none (Option.not_isSome_iff_eq_none.mp h)]
    simp [List.find?]

theorem eraLookup_eraInsert_ne {α : Type} (m : List (ℕ × α)) (k k' : ℕ) (v : α)
    (h : k' ≠ k) : eraLookup (eraInsert m k v) k' = eraLookup m k' := by
  induction m with
  | nil => simp [eraInsert, eraLookup, Ne.symm h]
  | cons e rest ih =>
    by_cases he : e.1 = k
    · subst he
      simp [eraInsert, eraLookup, Ne.symm h]
    · simp [eraInsert, eraLookup, he, ih]

theorem eraLookup_buildApyMap_none (env : ChainEnv) (validator : Validator) (addr : String)
    (era : ℕ) (eras : List ℕ) (h : (historicalEraAPY env validator addr era).1 = none) :
    eraLookup (buildApyMap env validator addr eras).1 era = none := by
  have key : ∀ (l : List ℕ) (acc : List (ℕ × ℚ) × Bool), eraLookup acc.1 era = none →
      eraLookup (l.foldl (buildApyStep env validator addr) acc).1 era = none := by
    intro l
    induction l with
    | nil => intro acc h0; exact h0
    | cons e rest ih =>
      intro acc h0
      rw [List.foldl_cons]
      apply ih
      unfold buildApyStep
      by_cases hee : e = era
      · subst hee
        rcases hm : historicalEraAPY env validator addr e with ⟨o, bb⟩
        rw [hm] at h
        simp only at h
        subst h
        simp [hm, h0]
      · rcases hm : historicalEraAPY env validator addr e with ⟨o, bb⟩
        cases o with
        | some apy =>
          simp only [hm]
          exact (eraLookup_eraInsert_ne acc.1 e era apy (Ne.symm hee)).trans h0
        | none => simpa [hm] using h0
  exact key eras ([], false) rfl

theorem filterCheckEntry_address (env : ChainEnv) (incF incB : Bool)
    (cache : List (String × Validator)) (v : SummaryEntry) (e : FilteredEntry)
    (h : filterCheckEntry env incF incB cache v = some e) : e.address = v.address := by
  unfold filterCheckEntry at h
  cases hc : cacheLookup cache v.address with
  | some cached =>
    rw [hc] at h
    simp only at h
    split_ifs at h <;>
      first
        | exact Option.noConfusion h
        | (injection h with h2; subst h2; rfl)
  | none =>
    rw [hc] at h
    simp only at h
    cases hf : env.stakingValidators v.address with
    | err =>
      rw [hf] at h
      injection h with h2
      subst h2
      rfl
    | ok prefs =>
      rw [hf] at h
      simp only at h
      split_ifs at h <;>
        first
          | exact Option.noConfusion h
          | (injection h with h2; subst h2; rfl)

theorem filterCheckEntry_cached (env : ChainEnv) (incF incB : Bool)
    (cache : List (String × Validator)) (v : SummaryEntry) (vr : Validator)
    (hc : cacheLookup cache v.address = some vr) :
    filterCheckEntry env incF incB cache v =
      if incF = false ∧ 1 ≤ vr.commission then none
      else if incB = false ∧ vr.blockedNominations then none
      else some { address := v.address, points := v.points, lastEraAPY := some vr.lastEraAPY } := by
  unfold filterCheckEntry
  rw [hc]

theorem mem_applyFilters (env : ChainEnv) (s : ValidatorState) (e : FilteredEntry) :
    e ∈ (applyFilters env s).1.filteredValidators ↔ e ∈ applyFiltersResults env s := by
  show e ∈ (if s.lastEraAPYCalculated = true then _ else _) ↔ _
  split
  · exact (List.perm_insertionSort _ _).mem_iff
  · exact Iff.rfl

theorem fetchValidatorPage_currentPage (env : ChainEnv) (page : ℕ) (s : ValidatorState) :
    (fetchValidatorPage env page s).1.currentPage =
      if s.filteredValidators.isEmpty then s.currentPage else page := by
  unfold fetchValidatorPage
  split <;> simp_all

/-! ## Claim C1 -/

/-- Claim C1 (amended): `fetchHistoricalPerformance` does *not* merge the
map fields key-by-key; when the fetch proceeds (address nonempty, record
found in the cache, and not skipped by the coverage guard), the stored
record's `previousErasPoints`, `previousErasRewards` and
`historicalCommission` are *replaced wholesale* by the freshly fetched
maps, while `apyByEra` is carried over unchanged; eras known before but
not re-fetched are therefore erased. -/
theorem fetchHistoricalPerformance_replaces_maps
    (env : ChainEnv) (s : ValidatorState) (addr : String) (force : Bool) (v : Validator)
    (ha : ¬addr = "")
    (hv : cacheLookup s.validatorCache addr = some v)
    (hguard : ¬(force = false ∧
      (requestedEras s.activeEra s.historyLength).length ≤
        v.performance.previousErasPoints.length)) :
    (cacheLookup (fetchHistoricalPerformance env addr force s).validatorCache addr).map
        (fun u => (u.performance.previousErasPoints, u.rewards.previousErasRewards,
                   u.historicalCommission, u.rewards.apyByEra)) =
      some
        ((historicalFetch env addr
            (requestedEras s.activeEra s.historyLength)).1.validatorPerformance,
         (historicalFetch env addr
            (requestedEras s.activeEra s.historyLength)).1.validatorRewards,
         (historicalFetch env addr
            (requestedEras s.activeEra s.historyLength)).1.validatorCommissions,
         v.rewards.apyByEra) := by
  unfold fetchHistoricalPerformance
  rw [if_neg ha, hv]
  simp only [Option.orElse]
  rw [if_neg hguard]
  simp [cacheLookup_cacheInsert_self]

/-- Witness for C1 at the concrete scenario. -/
theorem fetchHistoricalPerformance_replaces_maps_witness :
    (cacheLookup (fetchHistoricalPerformance histEnv "A" true histState).validatorCache "A").map
        (fun u => (u.performance.previousErasPoints, u.rewards.previousErasRewards,
                   u.historicalCommission, u.rewards.apyByEra)) =
      some
        ((historicalFetch histEnv "A"
            (requestedEras histState.activeEra histState.historyLength)).1.validatorPerformance,
         (historicalFetch histEnv "A"
            (requestedEras histState.activeEra histState.historyLength)).1.validatorRewards,
         (historicalFetch histEnv "A"
            (requestedEras histState.activeEra histState.historyLength)).1.validatorCommissions,
         histValidatorA.rewards.apyByEra) :=
  fetchHistoricalPerformance_replaces_maps histEnv histState "A" true histValidatorA
    (by decide) (by decide) (by decide)

/-- Counterexample to C1 as stated: validator `A` knows era 5 before the
refresh; after a forced refresh that fetches only era 7, era 7 is present
but era 5 has been erased - the union claim fails. -/
theorem fetchHistoricalPerformance_union_counterexample :
    (cacheLookup histState.validatorCache "A").map
        (fun u => eraLookup u.performance.previousErasPoints 5) = some (some 10) ∧
    (cacheLookup histResult.validatorCache "A").map
        (fun u => eraLookup u.performance.previousErasPoints 7) = some (some 20) ∧
    (cacheLookup histResult.validatorCache "A").map
        (fun u => eraLookup u.performance.previousErasPoints 5) = some none := by
  decide

/-! ## Claim C2 -/

/-- Claim C2 (amended): `validatorReward` is computed with double-precision
floating point (`BigInt(Math.floor(Number(R) * (p / P)))`, embedded as
`jsValidatorReward`) and can differ from the exact
`floor(R * p / P)`; only the subsequent `nominatorReward` step is exact
`BigInt` arithmetic with the commission scaled by `10^9`: it equals the
floor of the exact rational `validatorReward * (10^9 - commissionPart) / 10^9`. -/
theorem nominatorReward_exact_integer (vR cp : ℤ)
    (hvR : 0 ≤ vR) (hcp0 : 0 ≤ cp) (hcp : cp ≤ 1000000000) :
    jsNominatorReward vR cp =
      ⌊((vR * (1000000000 - cp) : ℤ) : ℚ) / ((1000000000 : ℕ) : ℚ)⌋ := by
  unfold jsNominatorReward
  have hnn : 0 ≤ vR * (1000000000 - cp) := mul_nonneg hvR (by omega)
  rw [Int.tdiv_eq_ediv hnn (by norm_num), Rat.floor_intCast_div_natCast]
  norm_num

/-- Witness for C2: the spec's own end-to-end numbers
(`validatorReward = 250e9`, commission 0.1). -/
theorem nominatorReward_exact_integer_witness :
    jsNominatorReward 250000000000 100000000 =
      ⌊((250000000000 * (1000000000 - 100000000) : ℤ) : ℚ) / ((1000000000 : ℕ) : ℚ)⌋ ∧
    jsNominatorReward 250000000000 100000000 = 225000000000 :=
  ⟨nominatorReward_exact_integer 250000000000 100000000 (by decide) (by decide) (by decide),
   by decide⟩

/-- Counterexample to C2 as stated: at `R = 10^17`, `p = 1`, `P = 3` the
code's double-precision `validatorReward` is `33333333333333332`, one short
of the exact `floor(R * p / P) = 33333333333333333` - so the monetary
quantity is *not* computed in an exact integer domain. -/
theorem validatorReward_float_counterexample :
    jsValidatorReward (10 ^ 17) 1 3 = 33333333333333332 ∧
    ((10 ^ 17 : ℤ) * 1).ediv 3 = 33333333333333333 ∧
    jsValidatorReward (10 ^ 17) 1 3 ≠ ((10 ^ 17 : ℤ) * 1).ediv 3 := by
  decide

/-! ## Claim C3 -/

/-- Claim C3 (amended): the zero guards.  In the bulk last-era computation,
for a validator without a cached positive `lastEraAPY`, zero era points or
an absent/zero stake overview yield an APY of `0`; but a zero era points
*total* aborts the whole bulk run, leaving every cached `lastEraAPY`
unchanged (not set to 0).  In the historical computation, an era with zero
validator points or zero total, or with an absent/zero stake, gets *no*
`apyByEra` entry (absent rather than 0). -/
theorem apy_zero_guard_behavior :
    (∀ (env : ChainEnv) (lastEra : ℕ) (indiv : List (String × ℕ)) (P : ℕ) (R : ℤ)
       (cache : List (String × Validator)) (v : SummaryEntry),
       (∀ ex, cacheLookup cache v.address = some ex → ex.lastEraAPY ≤ 0) →
       ((indiv.find? (fun e => e.1 == v.address)).map Prod.snd).getD 0 = 0 →
       (bulkEntryResult env lastEra indiv P R cache v).1 = 0) ∧
    (∀ (env : ChainEnv) (lastEra : ℕ) (indiv : List (String × ℕ)) (P : ℕ) (R : ℤ)
       (cache : List (String × Validator)) (v : SummaryEntry),
       (∀ ex, cacheLookup cache v.address = some ex → ex.lastEraAPY ≤ 0) →
       (∀ o, env.erasStakersOverview lastEra v.address = Fetch.ok (some o) → o.total = 0) →
       (bulkEntryResult env lastEra indiv P R cache v).1 = 0) ∧
    (∀ (env : ChainEnv) (s : ValidatorState) (pts : EraPointsData) (R : ℤ),
       env.erasValidatorReward s.lastEra = Fetch.ok (some R) →
       env.erasRewardPoints s.lastEra = Fetch.ok (some pts) →
       pts.total = 0 →
       (calculateLastEraAPYForAllValidators env s).1.validatorCache = s.validatorCache) ∧
    (∀ (env : ChainEnv) (validator : Validator) (addr : String) (era : ℕ) (d : EraPointsData),
       env.erasRewardPoints era = Fetch.ok (some d) →
       (((d.individual.find? (fun e => e.1 == addr)).map Prod.snd).getD 0 = 0 ∨ d.total = 0) →
       (historicalEraAPY env validator addr era).1 = none) ∧
    (∀ (env : ChainEnv) (validator : Validator) (addr : String) (era : ℕ),
       (∀ o, env.erasStakersOverview era addr = Fetch.ok (some o) → o.total = 0) →
       (historicalEraAPY env validator addr era).1 = none) ∧
    (∀ (env : ChainEnv) (validator : Validator) (addr : String) (era : ℕ) (eras : List ℕ),
       (historicalEraAPY env validator addr era).1 = none →
       eraLookup (buildApyMap env validator addr eras).1 era = none) := by
  refine ⟨?_, ?_, ?_, ?_, ?_, ?_⟩
  · intro env lastEra indiv P R cache v hnc hp
    unfold bulkEntryResult
    cases hc : cacheLookup cache v.address with
    | some ex =>
      simp only [if_neg (not_lt.mpr (hnc ex hc))]
      unfold bulkEntryCompute
      rw [hp]
      cases env.erasValidatorPrefs lastEra v.address with
      | err => rfl
      | ok prefs =>
        simp only
        cases env.erasStakersOverview lastEra v.address with
        | err => rfl
        | ok oo =>
          cases oo with
          | none => rfl
          | some o =>
            simp only
            split
            · rfl
            · simp
    | none =>
      unfold bulkEntryCompute
      rw [hp]
      cases env.erasValidatorPrefs lastEra v.address with
      | err => rfl
      | ok prefs =>
        simp only
        cases env.erasStakersOverview lastEra v.address with
        | err => rfl
        | ok oo =>
          cases oo with
          | none => rfl
          | some o =>
            simp only
            split
            · rfl
            · simp
  · intro env lastEra indiv P R cache v hnc ho
    unfold bulkEntryResult
    have compute0 : ∀ ex, (bulkEntryCompute env lastEra indiv P R ex v).1 = 0 := by
      intro ex
      unfold bulkEntryCompute
      cases env.erasValidatorPrefs lastEra v.address with
      | err => rfl
      | ok prefs =>
        simp only
        cases hov : env.erasStakersOverview lastEra v.address with
        | err => rfl
        | ok oo =>
          cases oo with
          | none => rfl
          | some o =>
            simp only
            rw [if_pos (ho o hov)]
    cases hc : cacheLookup cache v.address with
    | some ex =>
      simp only [if_neg (not_lt.mpr (hnc ex hc))]
      exact compute0 (some ex)
    | none => exact compute0 none
  · intro env s pts R h1 h2 h0
    unfold calculateLastEraAPYForAllValidators
    rw [h1, h2]
    simp only
    rw [if_pos h0]
  · intro env validator addr era d hd hzero
    unfold historicalEraAPY
    cases env.erasValidatorReward era with
    | err => rfl
    | ok rr =>
      cases rr with
      | none => rfl
      | some r =>
        simp only
        split
        · rfl
        · rw [hd]
          simp only
          rw [if_pos hzero]
  · intro env validator addr era ho
    unfold historicalEraAPY
    cases env.erasValidatorReward era with
    | err => rfl
    | ok rr =>
      cases rr with
      | none => rfl
      | some r =>
        simp only
        split
        · rfl
        · cases env.erasRewardPoints era with
          | err => rfl
          | ok dd =>
            cases dd with
            | none => rfl
            | some d =>
              simp only
              split
              · rfl
              · cases hov : env.erasStakersOverview era addr with
                | err => rfl
                | ok oo =>
                  cases oo with
                  | none => rfl
                  | some o =>
                    simp only
                    rw [if_pos (ho o hov)]
  · intro env validator addr era eras h
    exact eraLookup_buildApyMap_none env validator addr era eras h

/-- Witness for C3, discharging each part at a concrete input. -/
theorem apy_zero_guard_behavior_witness :
    (bulkEntryResult emptyEnv 0 [] 0 0 [] { address := "A", points := 0 }).1 = 0 ∧
    (calculateLastEraAPYForAllValidators zeroTotalEnv zeroTotalState).1.validatorCache =
      zeroTotalState.validatorCache ∧
    (historicalEraAPY apyEnv (mkValidator "A" 0 false 0) "A" 2).1 = none ∧
    eraLookup (buildApyMap apyEnv (mkValidator "A" 0 false 0) "A" [3, 2, 1]).1 2 = none := by
  refine ⟨?_, ?_, ?_, ?_⟩
  · exact apy_zero_guard_behavior.1 emptyEnv 0 [] 0 0 []
      { address := "A", points := 0 }
      (fun ex h => by simp [cacheLookup, List.find?] at h) (by decide)
  · exact apy_zero_guard_behavior.2.2.1 zeroTotalEnv zeroTotalState
      { individual := [("A", 0)], total := 0 } 1000 (by decide) (by decide) (by decide)
  · exact apy_zero_guard_behavior.2.2.2.1 apyEnv (mkValidator "A" 0 false 0) "A" 2
      { individual := [("A", 0)], total := 2 } (by decide) (Or.inl (by decide))
  · exact apy_zero_guard_behavior.2.2.2.2.2 apyEnv (mkValidator "A" 0 false 0) "A" 2 [3, 2, 1]
      (apy_zero_guard_behavior.2.2.2.1 apyEnv (mkValidator "A" 0 false 0) "A" 2
        { individual := [("A", 0)], total := 2 } (by decide) (Or.inl (by decide)))

/-- Counterexample to C3 as stated: with a zero era points total and a
nonzero reward, the bulk computation aborts and validator `A` keeps its
prior `lastEraAPY = 7` instead of it becoming 0. -/
theorem apy_zero_total_counterexample :
    zeroTotalEnv.erasRewardPoints zeroTotalState.lastEra =
      Fetch.ok (some { individual := [("A", 0)], total := 0 }) ∧
    zeroTotalEnv.erasValidatorReward zeroTotalState.lastEra = Fetch.ok (some 1000) ∧
    (cacheLookup zeroTotalResult.validatorCache "A").map Validator.lastEraAPY = some 7 ∧
    (7 : ℚ) ≠ 0 := by
  decide

/-! ## Claim C4 -/

/-- Claim C4 (amended): the aggregates are means over the entries *present*
in `apyByEra`, not over all requested eras: for the literal map
`(1 ↦ 10, 2 ↦ 0, 3 ↦ 20)` the computation indeed yields `averageAPY = 10`
and `activeOnlyAverageAPY = 15`; but an era skipped by the per-era guards
contributes no entry at all (second conjunct), and when the validator is
*displayed*, the trailing `calculateAverages` pass overwrites `averageAPY`
with the mean over the nonzero entries: in the concrete displayed scenario
the freshly computed aggregates are `(36525, 73050)` yet the stored
`averageAPY` ends up `73050`. -/
theorem apy_average_semantics :
    apyAggregates [(1, 10), (2, 0), (3, 20)] = (10, 15) ∧
    (∀ (env : ChainEnv) (validator : Validator) (addr : String) (era : ℕ) (eras : List ℕ),
       (historicalEraAPY env validator addr era).1 = none →
       eraLookup (buildApyMap env validator addr eras).1 era = none) ∧
    apyAggregates (buildApyMap apyEnv apyDispValidator "A" apyDispState.historicalEras).1 =
      (36525, 73050) ∧
    (cacheLookup apyDispResult.validatorCache "A").map (fun u => u.rewards.averageAPY) =
      some 73050 ∧
    (cacheLookup apyDispResult.validatorCache "A").map (fun u => u.rewards.activeOnlyAverageAPY) =
      some 73050 := by
  refine ⟨by decide, ?_, by decide, by decide, by decide⟩
  intro env validator addr era eras h
  exact eraLookup_buildApyMap_none env validator addr era eras h

/-- Witness for C4's quantified conjunct at a concrete skipped era. -/
theorem apy_average_semantics_witness :
    eraLookup (buildApyMap apyEnv (mkValidator "A" 0 false 0) "A"
      apyState.historicalEras).1 2 = none :=
  apy_average_semantics.2.1 apyEnv (mkValidator "A" 0 false 0) "A" 2
    apyState.historicalEras (by decide)

/-- Counterexample to C4 as stated: with requested eras `[3, 2, 1]` and
era 2 inactive, the computed `averageAPY` is `109575 / 2 = 54787.5`, not
the claimed mean over all requested eras including the inactive one
(which would be `36525`). -/
theorem apy_average_counterexample :
    (cacheLookup apyResult.validatorCache "A").map (fun u => u.rewards.averageAPY) =
      some (Rat.divInt 109575 2) ∧
    (cacheLookup apyResult.validatorCache "A").map (fun u =>
        jsDiv (jsSum (apyResult.historicalEras.map (fun era =>
          (eraLookup u.rewards.apyByEra era).getD 0)))
          ((apyResult.historicalEras.length : ℕ) : ℚ)) = some 36525 ∧
    Rat.divInt 109575 2 ≠ (36525 : ℚ) := by
  decide

/-! ## Claim C5 -/

/-- Claim C5 (amended): the single-flight protection lives only in
`applyFilters`' scheduling step: while `calculatingLastEraAPY` is `true`,
`applyFilters` never schedules another bulk run.
`calculateLastEraAPYForAllValidators` itself has no entry guard (see the
counterexample). -/
theorem bulk_apy_single_flight_guard (env : ChainEnv) (s : ValidatorState)
    (h : s.calculatingLastEraAPY = true) :
    (applyFilters env s).2 = false := by
  unfold applyFilters
  simp [h]

/-- Witness for C5 at the in-flight state. -/
theorem bulk_apy_single_flight_guard_witness :
    (applyFilters emptyEnv inflightState).2 = false :=
  bulk_apy_single_flight_guard emptyEnv inflightState (by decide)

/-- Counterexample to C5 as stated: invoking
`calculateLastEraAPYForAllValidators` while `calculatingLastEraAPY = true`
is *not* a no-op - it issues a remote fetch and resets
`lastEraAPYCalculated` to `false`. -/
theorem bulk_apy_reentry_counterexample :
    inflightState.calculatingLastEraAPY = true ∧
    inflightRun.2 ≠ [] ∧
    inflightRun.1 ≠ inflightState ∧
    inflightRun.1.lastEraAPYCalculated = false ∧
    inflightState.lastEraAPYCalculated = true := by
  decide

/-! ## Claim C6 -/

/-- Claim C6 (confirmed): after `applyFilters`, a validator with a cached
record is a member of `filteredValidators` exactly when
`(includeFullCommission OR commission < 1.0) AND
(includeBlockedNominations OR NOT blockedNominations)` holds of the cached
values - and it appears in the ranked list at all. -/
theorem applyFilters_membership (env : ChainEnv) (s : ValidatorState) (a : String)
    (vr : Validator) (hc : cacheLookup s.validatorCache a = some vr) :
    (∃ e ∈ (applyFilters env s).1.filteredValidators, e.address = a) ↔
      (((s.includeFullCommission = true ∨ vr.commission < 1) ∧
        (s.includeBlockedNominations = true ∨ vr.blockedNominations = false)) ∧
       ∃ p, ({ address := a, points := p } : SummaryEntry) ∈ s.allValidators) := by
  simp only [mem_applyFilters]
  unfold applyFiltersResults
  by_cases hfast : (s.includeFullCommission && s.includeBlockedNominations) = true
  · rw [if_pos hfast]
    obtain ⟨hf1, hf2⟩ := Bool.and_eq_true_iff.mp hfast
    constructor
    · rintro ⟨e, he, hea⟩
      rw [List.mem_map] at he
      obtain ⟨v, hv, rfl⟩ := he
      refine ⟨⟨Or.inl hf1, Or.inl hf2⟩, v.points, ?_⟩
      have : v.address = a := hea
      cases v
      subst this
      exact hv
    · rintro ⟨_, p, hp⟩
      exact ⟨{ address := a, points := p, lastEraAPY := none },
        List.mem_map.mpr ⟨{ address := a, points := p }, hp, rfl⟩, rfl⟩
  · rw [if_neg hfast]
    rw [chunkMap_eq_map]
    constructor
    · rintro ⟨e, he, hea⟩
      rw [List.mem_filterMap] at he
      obtain ⟨oe, hoe, hid⟩ := he
      have hoe' : some e ∈ s.allValidators.map
          (filterCheckEntry env s.includeFullCommission s.includeBlockedNominations
            s.validatorCache) := by
        cases oe with
        | none => cases hid
        | some x => cases hid; exact hoe
      rw [List.mem_map] at hoe'
      obtain ⟨v, hv, hfv⟩ := hoe'
      have hva : v.address = a := by
        rw [← filterCheckEntry_address env s.includeFullCommission s.includeBlockedNominations
          s.validatorCache v e hfv]
        exact hea
      have hcv : cacheLookup s.validatorCache v.address = some vr := by rw [hva]; exact hc
      rw [filterCheckEntry_cached env s.includeFullCommission s.includeBlockedNominations
        s.validatorCache v vr hcv] at hfv
      by_cases h1 : s.includeFullCommission = false ∧ 1 ≤ vr.commission
      · rw [if_pos h1] at hfv; cases hfv
      · rw [if_neg h1] at hfv
        by_cases h2 : s.includeBlockedNominations = false ∧ vr.blockedNominations = true
        · rw [if_pos h2] at hfv; cases hfv
        · rw [if_neg h2] at hfv
          refine ⟨⟨?_, ?_⟩, v.points, ?_⟩
          · cases hfc : s.includeFullCommission with
            | true => exact Or.inl rfl
            | false =>
              right
              exact not_le.mp (fun hle => h1 ⟨hfc, hle⟩)
          · cases hfb : s.includeBlockedNominations with
            | true => exact Or.inl rfl
            | false =>
              right
              cases hbn : vr.blockedNominations with
              | false => rfl
              | true => exact absurd ⟨hfb, hbn⟩ h2
          · cases v
            subst hva
            exact hv
    · rintro ⟨⟨h1, h2⟩, p, hp⟩
      refine ⟨{ address := a, points := p, lastEraAPY := some vr.lastEraAPY }, ?_, rfl⟩
      rw [List.mem_filterMap]
      refine ⟨some { address := a, points := p, lastEraAPY := some vr.lastEraAPY }, ?_, rfl⟩
      rw [List.mem_map]
      refine ⟨{ address := a, points := p }, hp, ?_⟩
      rw [filterCheckEntry_cached env s.includeFullCommission s.includeBlockedNominations
        s.validatorCache { address := a, points := p } vr hc]
      rw [if_neg ?_, if_neg ?_]
      · rintro ⟨hb, hbn⟩
        rcases h2 with h2 | h2
        · rw [h2] at hb; cases hb
        · rw [h2] at hbn; cases hbn
      · rintro ⟨hf, hcm⟩
        rcases h1 with h1 | h1
        · rw [h1] at hf; cases hf
        · exact absurd hcm (not_le.mpr h1)

/-- Witness for C6: the cached validator with commission 1/2 and open
nominations is a member under the default filters. -/
theorem applyFilters_membership_witness :
    ∃ e ∈ (applyFilters emptyEnv filterState).1.filteredValidators, e.address = "A" :=
  (applyFilters_membership emptyEnv filterState "A" (mkValidator "A" (mkRat 1 2) false 3)
      (by decide)).mpr
    ⟨⟨Or.inr (by decide), Or.inr (by decide)⟩, 5, by decide⟩

/-! ## Claim C7 -/

/-- Claim C7 (amended): `setPageSize` and `setFilterOptions` reset
`currentPage` to 1 *when the (re)filtered projection is nonempty at the
inner `fetchValidatorPage(1)` call*; when it is empty, that call returns
before touching `currentPage`, which keeps its prior value. -/
theorem page_reset_on_nonempty :
    (∀ (env : ChainEnv) (n : ℕ) (s : ValidatorState), s.filteredValidators ≠ [] →
       (setPageSize env n s).1.currentPage = 1) ∧
    (∀ (env : ChainEnv) (options : FilterOptions) (s : ValidatorState),
       (applyFilters env { s with
          includeFullCommission := options.includeFullCommission.getD s.includeFullCommission
          includeBlockedNominations :=
            options.includeBlockedNominations.getD s.includeBlockedNominations
        }).1.filteredValidators ≠ [] →
       (setFilterOptions env options s).currentPage = 1) ∧
    (∀ (env : ChainEnv) (n : ℕ) (s : ValidatorState), s.filteredValidators = [] →
       (setPageSize env n s).1.currentPage = s.currentPage) ∧
    (∀ (env : ChainEnv) (options : FilterOptions) (s : ValidatorState),
       (applyFilters env { s with
          includeFullCommission := options.includeFullCommission.getD s.includeFullCommission
          includeBlockedNominations :=
            options.includeBlockedNominations.getD s.includeBlockedNominations
        }).1.filteredValidators = [] →
       (setFilterOptions env options s).currentPage = s.currentPage) := by
  have hap : ∀ (env : ChainEnv) (s : ValidatorState),
      (applyFilters env s).1.currentPage = s.currentPage := by
    intro env s
    unfold applyFilters
    rfl
  refine ⟨?_, ?_, ?_, ?_⟩
  · intro env n s h
    unfold setPageSize
    rw [fetchValidatorPage_currentPage]
    simp [h]
  · intro env options s h
    unfold setFilterOptions
    rw [fetchValidatorPage_currentPage]
    simp only [List.isEmpty_iff]
    rw [if_neg h]
  · intro env n s h
    unfold setPageSize
    rw [fetchValidatorPage_currentPage]
    simp [h]
  · intro env options s h
    unfold setFilterOptions
    rw [fetchValidatorPage_currentPage]
    simp only [List.isEmpty_iff]
    rw [if_pos h, hap]

/-- Witness for C7: a nonempty projection resets to page 1; the filter
path with the default (unchanged) options also resets to page 1. -/
theorem page_reset_on_nonempty_witness :
    (setPageSize emptyEnv 5 failState).1.currentPage = 1 ∧
    (setFilterOptions emptyEnv
      { includeFullCommission := none, includeBlockedNominations := none }
      filterState).currentPage = 1 :=
  ⟨page_reset_on_nonempty.1 emptyEnv 5 failState (by decide),
   page_reset_on_nonempty.2.1 emptyEnv
     { includeFullCommission := none, includeBlockedNominations := none }
     filterState (by decide)⟩

/-- Counterexample to C7 as stated: with an empty filtered projection and
the UI on page 3, `setPageSize(10)` leaves `currentPage` at 3, not 1. -/
theorem page_reset_empty_counterexample :
    pageThreeState.filteredValidators = [] ∧
    pageThreeState.currentPage = 3 ∧
    (setPageSize emptyEnv 10 pageThreeState).1.currentPage = 3 ∧
    (3 : ℕ) ≠ 1 := by
  decide

/-! ## Claim C8 -/

/-- Claim C8 (amended): after `applyFilters` and `fetchValidatorPage`,
`filteredValidators.length = totalValidators` always holds;
`displayedValidators` equals the cache-hydrated image of the page slice
*provided the filtered projection was nonempty at the page fetch* (when it
is empty the fetch early-returns, which can leave a stale page - see the
counterexample); `totalPages` on 25 validators at page size 10 is 3 and
page 3 holds exactly 5 entries. -/
theorem pagination_invariants :
    (∀ (env : ChainEnv) (s : ValidatorState) (page : ℕ),
       (fetchValidatorPage env page (applyFilters env s).1).1.filteredValidators.length =
         (fetchValidatorPage env page (applyFilters env s).1).1.totalValidators) ∧
    (∀ (env : ChainEnv) (page : ℕ) (s : ValidatorState),
       s.filteredValidators.isEmpty = false →
       (fetchValidatorPage env page s).1.displayedValidators =
         (pageSlice s page).map (fun e =>
           (hydratePageEntry env s.activeEra s.currentEraReward s.currentEraPoints
             s.validatorCache e).1)) ∧
    totalPages 25 10 = 3 ∧
    (pageSlice twentyFiveState 3).length = 5 ∧
    twentyFiveState.filteredValidators.length = 25 := by
  have hpage : ∀ (env : ChainEnv) (page : ℕ) (s : ValidatorState),
      (fetchValidatorPage env page s).1.filteredValidators = s.filteredValidators ∧
      (fetchValidatorPage env page s).1.totalValidators = s.totalValidators := by
    intro env page s
    unfold fetchValidatorPage
    split <;> exact ⟨rfl, rfl⟩
  refine ⟨?_, ?_, by decide, by decide, by decide⟩
  · intro env s page
    rw [(hpage env page _).1, (hpage env page _).2]
    unfold applyFilters
    rfl
  · intro env page s h
    unfold fetchValidatorPage
    rw [h]
    simp only [Bool.false_eq_true, if_false]
    rw [chunkMap_eq_map]

/-- Witness for C8's quantified conjuncts at concrete inputs. -/
theorem pagination_invariants_witness :
    (fetchValidatorPage emptyEnv 1
        (applyFilters emptyEnv filterState).1).1.filteredValidators.length =
      (fetchValidatorPage emptyEnv 1 (applyFilters emptyEnv filterState).1).1.totalValidators ∧
    (fetchValidatorPage failEnv 1 failState).1.displayedValidators =
      (pageSlice failState 1).map (fun e =>
        (hydratePageEntry failEnv failState.activeEra failState.currentEraReward
          failState.currentEraPoints failState.validatorCache e).1) :=
  ⟨pagination_invariants.1 emptyEnv filterState 1,
   pagination_invariants.2.1 failEnv 1 failState (by decide)⟩

/-- Counterexample to C8 as stated: a reachable state (built from
`initialState` by `staleStep1` … `staleStep6`: bootstrap, the two delayed
background jobs, admit blocked validators, the rescheduled bulk job, then
exclude them again) in which `applyFilters` and `fetchValidatorPage(1)`
have completed, yet `displayedValidators` still holds the two stale rows
while the filtered projection - and hence the page slice - is empty. -/
theorem stale_displayed_counterexample :
    staleStep6.filteredValidators = [] ∧
    staleStep6.displayedValidators.length = 2 ∧
    (pageSlice staleStep6 staleStep6.currentPage).length = 0 := by
  decide

/-! ## Claim C9 -/

/-- Claim C9 (amended): a failed per-item fetch does not abort its
siblings or raise a session error, and degrades to a default record with
commission 0 and zero stake - but `lastEraAPY` is carried over from the
filtered entry (`lastEraAPY || 0`), not forced to 0: (1) the failure
record's fields; (2) one displayed row per slice entry regardless of
failures; (3) `error` is untouched by page hydration; (4) a failed
membership check in `applyFilters` keeps the row with `lastEraAPY: 0`. -/
theorem batch_failure_degrades :
    (∀ (env : ChainEnv) (activeEra : ℕ) (storeReward : ℤ) (curPoints : Option EraPointsData)
       (a : String) (p : ℕ) (apy : Option ℚ),
       env.stakingValidators a = Fetch.err →
       (fetchValidatorDetail env activeEra storeReward curPoints a p apy).1.commission = 0 ∧
       (fetchValidatorDetail env activeEra storeReward curPoints a p apy).1.totalStake = 0 ∧
       (fetchValidatorDetail env activeEra storeReward curPoints a p apy).1.ownStake = 0 ∧
       (fetchValidatorDetail env activeEra storeReward curPoints a p apy).1.lastEraAPY =
         apy.getD 0) ∧
    (∀ (env : ChainEnv) (page : ℕ) (s : ValidatorState),
       s.filteredValidators.isEmpty = false →
       (fetchValidatorPage env page s).1.displayedValidators.length =
         (pageSlice s page).length) ∧
    (∀ (env : ChainEnv) (page : ℕ) (s : ValidatorState),
       (fetchValidatorPage env page s).1.error = s.error) ∧
    (∀ (env : ChainEnv) (incF incB : Bool) (cache : List (String × Validator))
       (v : SummaryEntry),
       cacheLookup cache v.address = none →
       env.stakingValidators v.address = Fetch.err →
       filterCheckEntry env incF incB cache v =
         some { address := v.address, points := v.points, lastEraAPY := some 0 }) := by
  refine ⟨?_, ?_, ?_, ?_⟩
  · intro env activeEra storeReward curPoints a p apy h
    unfold fetchValidatorDetail
    rw [h]
    exact ⟨rfl, rfl, rfl, rfl⟩
  · intro env page s h
    unfold fetchValidatorPage
    rw [h]
    simp only [Bool.false_eq_true, if_false]
    rw [chunkMap_eq_map, List.length_map]
  · intro env page s
    unfold fetchValidatorPage
    split <;> rfl
  · intro env incF incB cache v hc hf
    unfold filterCheckEntry
    rw [hc, hf]

/-- Witness for C9 at the failing environment. -/
theorem batch_failure_degrades_witness :
    (fetchValidatorDetail failEnv 0 0 none "A" 3 (some 5)).1.commission = 0 ∧
    (fetchValidatorDetail failEnv 0 0 none "A" 3 (some 5)).1.lastEraAPY = 5 ∧
    (fetchValidatorPage failEnv 1 failState).1.displayedValidators.length = 1 ∧
    (fetchValidatorPage failEnv 1 failState).1.error = none :=
  ⟨(batch_failure_degrades.1 failEnv 0 0 none "A" 3 (some 5) rfl).1,
   (batch_failure_degrades.1 failEnv 0 0 none "A" 3 (some 5) rfl).2.2.2,
   (batch_failure_degrades.2.1 failEnv 1 failState (by decide)).trans (by decide),
   batch_failure_degrades.2.2.1 failEnv 1 failState⟩

/-- Counterexample to C9 as stated: the failed item's default record keeps
the filtered entry's `lastEraAPY = 5` - it is not the claimed "APY 0". -/
theorem batch_failure_apy_counterexample :
    failEnv.stakingValidators "A" = Fetch.err ∧
    failResult.1.displayedValidators.map (fun v => (v.commission, v.totalStake, v.lastEraAPY)) =
      [(0, 0, 5)] ∧
    (5 : ℚ) ≠ 0 := by
  decide

/-! ## Claim C10 -/

/-- Claim C10 (confirmed): with an empty filtered projection,
`fetchValidatorPage` returns before any state mutation: the state is
returned unchanged and no remote call is issued. -/
theorem fetchValidatorPage_empty_noop (env : ChainEnv) (page : ℕ) (s : ValidatorState)
    (h : s.filteredValidators = []) :
    fetchValidatorPage env page s = (s, []) := by
  unfold fetchValidatorPage
  rw [h]
  rfl

/-- Witness for C10 at the initial state. -/
theorem fetchValidatorPage_empty_noop_witness :
    fetchValidatorPage emptyEnv 7 initialState = (initialState, []) :=
  fetchValidatorPage_empty_noop emptyEnv 7 initialState rfl

end PolkadotStaking
